import Mathlib

/-!
Verification of the XSerialOne input-remapping framework.

Shallow embedding of the Python sources:
  * `XSerialOne/base.py`            — `FrameState`, normalization (`_normalize_values`,
                                      `from_dict`, `to_dict`)
  * `XSerialOne/serial_interface.py`— `Packet.pack`, `SerialInterface`
  * `XSerialOne/pipeline.py`        — `InputPipeline.update` (one tick)
  * `XSerialOne/modules/*.py`       — the shipped modifiers

Python floats are modelled as rationals (`ℚ`): every literal and every
arithmetic operation relevant to the claims is exact in binary floating
point or is only compared, never asserted, so the rational model agrees
with the Python semantics on all inputs the theorems quantify over.
Python ints are `ℤ`/`ℕ`.  Exceptions are explicit (`PyErr`).
-/

namespace XSerialOne

/-- A Python runtime value, as far as `FrameState._normalize_values` can
observe one: the normalizer only uses `isinstance` checks against
`dict`/`list`/`tuple`, `dict.get`, `bool(x)`, `float(x)`, `int(x)` and
sequence indexing. -/
inductive PyVal where
  | none : PyVal
  | bool (b : Bool) : PyVal
  | int (n : ℤ) : PyVal
  | float (q : ℚ) : PyVal
  | str (s : String) : PyVal
  | list (xs : List PyVal) : PyVal
  | tuple (xs : List PyVal) : PyVal
  | dict (kvs : List (String × PyVal)) : PyVal
deriving Repr

/-- Python truthiness, `bool(x)`. -/
def pyBool : PyVal → Bool
  | PyVal.none => false
  | PyVal.bool b => b
  | PyVal.int n => n ≠ 0
  | PyVal.float q => q ≠ 0
  | PyVal.str s => s ≠ ""
  | PyVal.list xs => !xs.isEmpty
  | PyVal.tuple xs => !xs.isEmpty
  | PyVal.dict kvs => !kvs.isEmpty

/-- Python `float(x)`: `some` on numbers and booleans, `none` when the call
raises (`TypeError`/`ValueError`).  Parsing of numeric string literals is
not modelled (modelled as raising); no claim evaluates `float()` on a
string, and the normalizer clamps any parsed value anyway. -/
def pyFloat : PyVal → Option ℚ
  | PyVal.bool b => some (if b then 1 else 0)
  | PyVal.int n => some (n : ℚ)
  | PyVal.float q => some q
  | _ => Option.none

/-- Truncation toward zero, Python's `int(float)` behaviour. -/
def ratTrunc (q : ℚ) : ℤ := if 0 ≤ q then ⌊q⌋ else ⌈q⌉

/-- Python `int(x)`: `some` on numbers and booleans, `none` when the call
raises.  Numeric strings are modelled as raising (same caveat as
`pyFloat`). -/
def pyInt : PyVal → Option ℤ
  | PyVal.bool b => some (if b then 1 else 0)
  | PyVal.int n => some n
  | PyVal.float q => some (ratTrunc q)
  | _ => Option.none

/-- Model of `dict.get(key)` (Python dicts cannot hold duplicate keys, so first
match of an association list is faithful). -/
def dictGet (kvs : List (String × PyVal)) (k : String) : Option PyVal :=
  List.lookup k kvs

/-- Model of `FrameState` from `base.py`: immutable frame of the pipeline.
Python's tuples become lists; axis values are rationals. -/
structure FrameState where
  buttons : List Bool
  axes : List ℚ
  dpad : ℤ × ℤ
deriving DecidableEq, Repr

/-- The dataclass field defaults: 10 `False` buttons, 6 zero axes,
centered dpad. -/
def FrameState.default : FrameState :=
  { buttons := List.replicate 10 false
    axes := List.replicate 6 0
    dpad := (0, 0) }

/-- The §3 data-model invariants: exactly 10 buttons, exactly 6 axes each
in `[-1, 1]`, dpad components in `{-1, 0, 1}`. -/
def FrameState.invariant (f : FrameState) : Prop :=
  f.buttons.length = 10 ∧
  f.axes.length = 6 ∧
  (∀ a ∈ f.axes, -1 ≤ a ∧ a ≤ 1) ∧
  (f.dpad.1 = -1 ∨ f.dpad.1 = 0 ∨ f.dpad.1 = 1) ∧
  (f.dpad.2 = -1 ∨ f.dpad.2 = 0 ∨ f.dpad.2 = 1)

instance (f : FrameState) : Decidable f.invariant := by
  unfold FrameState.invariant; infer_instance

/-- The intermediate `out` dict built by `_normalize_values`. -/
structure NormOut where
  buttons : List Bool
  axes : List ℚ
  dpad : ℤ × ℤ

/-- The helper `_to_float_clamped` nested in `_normalize_values`:
`float(x)` with failure mapped to `0.0`, then `max(-1.0, min(1.0, v))`. -/
def _to_float_clamped (x : PyVal) : ℚ :=
  match pyFloat x with
  | some v => max (-1) (min 1 v)
  | Option.none => 0

/-- Model of `FrameState._normalize_values`.  The source initialises `out` to the
defaults, early-returns on non-dicts, and then overwrites each field only
when its `isinstance` check passes; the match below expresses exactly
those branches.  `(b + [False] * 10)[:10]` is append-then-take, likewise
for axes.  The dpad branch converts both components inside one
`try`/`except`, so one failing conversion keeps the default `(0, 0)`. -/
def _normalize_values (obj : PyVal) : NormOut :=
  match obj with
  | PyVal.dict kvs =>
    { buttons :=
        match dictGet kvs "buttons" with
        | some (PyVal.list xs) | some (PyVal.tuple xs) =>
            ((xs.map pyBool) ++ List.replicate 10 false).take 10
        | _ => List.replicate 10 false
      axes :=
        match dictGet kvs "axes" with
        | some (PyVal.list xs) | some (PyVal.tuple xs) =>
            ((xs.map _to_float_clamped) ++ List.replicate 6 0).take 6
        | _ => List.replicate 6 0
      dpad :=
        match dictGet kvs "dpad" with
        | some (PyVal.list (d0 :: d1 :: _)) | some (PyVal.tuple (d0 :: d1 :: _)) =>
            match pyInt d0, pyInt d1 with
            | some hx, some hy => (max (-1) (min 1 hx), max (-1) (min 1 hy))
            | _, _ => (0, 0)
        | _ => (0, 0) }
  | _ =>
    { buttons := List.replicate 10 false
      axes := List.replicate 6 0
      dpad := (0, 0) }

/-- Model of `FrameState.from_dict` (the `if False` arm selecting `_different_input`
is dead code; `_different_input` just forwards to `_normalize_values`). -/
def FrameState.from_dict (obj : PyVal) : FrameState :=
  let data := _normalize_values obj
  { buttons := data.buttons, axes := data.axes, dpad := data.dpad }

/-- Model of `FrameState.to_dict`: plain-form export
`{"buttons": list(...), "axes": list(...), "dpad": tuple(...)}`. -/
def FrameState.to_dict (f : FrameState) : PyVal :=
  PyVal.dict
    [ ("buttons", PyVal.list (f.buttons.map PyVal.bool))
    , ("axes", PyVal.list (f.axes.map PyVal.float))
    , ("dpad", PyVal.tuple [PyVal.int f.dpad.1, PyVal.int f.dpad.2]) ]

/-! ### Wire encoder (`serial_interface.py`) -/

/-- Round to nearest integer, ties to even (the IEEE-754 default used by
C's double-to-float conversion inside `struct.pack('<f', ...)`). -/
def rne (q : ℚ) : ℤ :=
  let f := ⌊q⌋
  let r := q - f
  if r < 1 / 2 then f
  else if 1 / 2 < r then f + 1
  else if f % 2 = 0 then f else f + 1

/-- IEEE-754 binary32 bit pattern of a rational under round-to-nearest-even,
modelling `struct.pack('<f', v)` for the exact (finite, non-NaN) doubles the
claims quantify over.  Values beyond the binary32 range map to the infinity
pattern (CPython instead raises `OverflowError`; axes are clamped to
`[-1, 1]`, so that branch is never reached by any theorem below). -/
def f32bits (q : ℚ) : ℕ :=
  if q = 0 then 0
  else
    let s : ℕ := if q < 0 then 2 ^ 31 else 0
    let m : ℚ := |q|
    let e : ℤ := Int.log 2 m
    if e ≤ -127 then
      -- subnormal range: unit in the last place is 2^(-149)
      s + (rne (m * (2 : ℚ) ^ (149 : ℤ))).toNat
    else
      let sig := (rne (m * (2 : ℚ) ^ (23 - e))).toNat
      if sig = 2 ^ 24 then
        if 127 < e + 1 then s + 255 * 2 ^ 23
        else s + (e + 1 + 127).toNat * 2 ^ 23
      else
        if 127 < e then s + 255 * 2 ^ 23
        else s + (e + 127).toNat * 2 ^ 23 + (sig - 2 ^ 23)

/-- The four little-endian bytes of `struct.pack('<f', q)`. -/
def f32le (q : ℚ) : List ℕ :=
  [f32bits q % 256, f32bits q / 256 % 256,
   f32bits q / 2 ^ 16 % 256, f32bits q / 2 ^ 24 % 256]

/-- The two little-endian bytes of `struct.pack('<H', n)` (the source only
packs values already masked with `0xFFFF`, where this is exact; CPython
raises on out-of-range input). -/
def u16le (n : ℕ) : List ℕ := [n % 256, n / 256 % 256]

/-- The single byte of `struct.pack('<B', n)` (exact for the in-range
values the source produces). -/
def u8 (n : ℤ) : List ℕ := [n.toNat % 256]

/-- Model of `Packet` from `serial_interface.py`. -/
structure Packet where
  buttons : ℕ
  axes : List ℚ
  dpad_code : ℤ

def Packet.HEADER : ℕ := 0xFF

/-- Model of `Packet.pack`: pad/truncate axes to 6, pack `'<HffffffB'`, prepend the
`0xFF` header and append `sum(payload) & 0xFF`. -/
def Packet.pack (p : Packet) : List ℕ :=
  let ax := (p.axes ++ List.replicate 6 0).take 6
  let payload := u16le p.buttons ++ (ax.map f32le).flatten ++ u8 p.dpad_code
  Packet.HEADER :: payload ++ [payload.sum % 256]

/-- Model of `SerialInterface`: all that matters for the claims is whether a real
port is open (`self.ser is not None`). -/
structure SerialInterface where
  ser : Bool

/-- Python `str.upper()` (character-wise upper-casing; ASCII covers every
port name the repository handles). -/
def pyUpper (s : String) : String := String.mk (s.data.map Char.toUpper)

/-- Python `str.startswith(prefixStr)`. -/
def pyStartsWith (s p : String) : Bool := p.data.isPrefixOf s.data

/-- Model of `SerialInterface.__init__`: `port=None` or empty (falsy) or a name whose
upper-casing starts with `"MOCK"` leaves `self.ser = None`; otherwise a
real `serial.Serial` handle is opened.  `port` is modelled as an optional
string (the only shapes the repository ever passes). -/
def SerialInterface.init (port : Option String) : SerialInterface :=
  match port with
  | Option.none => { ser := false }
  | some s =>
      if s = "" ∨ pyStartsWith (pyUpper s) "MOCK" then { ser := false }
      else { ser := true }

/-- Python exceptions distinguished by the claims. -/
inductive PyErr where
  | typeError : PyErr
  | runtimeError : PyErr
  | other : PyErr
deriving DecidableEq, Repr

/-- Model of `SerialInterface.buttons_to_bitmask`. -/
def buttons_to_bitmask (buttons : List Bool) : ℕ :=
  (buttons.enum.foldl
    (fun mask ip => if ip.2 then mask ||| (1 <<< ip.1) else mask) 0) &&& 0xFFFF

/-- Model of `SerialInterface.dpad_encode`: `(hx + 1) + (hy + 1) * 3`. -/
def dpad_encode (dpad : ℤ × ℤ) : ℤ := (dpad.1 + 1) + (dpad.2 + 1) * 3

/-- Model of `SerialInterface.send_frame`.  The argument is `some frame` for a
`FrameState` and `Option.none` for any other Python object (the
`isinstance` guard).  `Except.ok bytes` are the bytes written to the port;
an `Except.error` raises with nothing written. -/
def SerialInterface.send_frame (si : SerialInterface) (arg : Option FrameState) :
    Except PyErr (List ℕ) :=
  match arg with
  | Option.none => Except.error PyErr.typeError
  | some fs =>
    let packet : Packet :=
      { buttons := buttons_to_bitmask fs.buttons
        axes := fs.axes
        dpad_code := dpad_encode fs.dpad }
    if si.ser then Except.ok packet.pack
    else Except.error PyErr.runtimeError

/-! ### Shipped modifiers (`modules/antirecoil.py`, `modules/deadzones.py`,
`modules/twitchchat.py`).  `frame_constants.Axis` indices:
LEFTSTICKX=0, LEFTSTICKY=1, RIGHTSTICKX=2, RIGHTSTICKY=3, LEFTTRIGGER=4,
RIGHTTRIGGER=5.  Python list indexing `axes[i]` raises `IndexError` on a
short list; the modifiers are only ever applied to invariant frames
(6 axes), where `List.getD i 0` agrees with it. -/

/-- Model of `BasicAntiRecoilModifier`: `__init__` hard-codes
`recoil_strength = 0.3` and `trigger_threshold = 0.1`; the fields model
the object attributes. -/
structure BasicAntiRecoilModifier where
  recoil_strength : ℚ := 3 / 10
  trigger_threshold : ℚ := 1 / 10

/-- Model of `BasicAntiRecoilModifier.update`.  The source compares
`math.sqrt(x² + y²) > 0.01`, modelled by the equivalent squared comparison
`x² + y² > 0.0001` (both sides nonnegative; and both branches of that `if`
write the same values anyway — the "then" branch additionally re-writes
`RIGHTSTICKX` with its own value). -/
def BasicAntiRecoilModifier.update (m : BasicAntiRecoilModifier)
    (state : FrameState) : FrameState :=
  let axes := state.axes
  let right_x := axes.getD 2 0
  let right_y := axes.getD 3 0
  let rt := axes.getD 5 0
  if m.trigger_threshold ≤ rt then
    let recoil_force := |m.recoil_strength| * (rt / 1)
    let new_axes :=
      if 1 / 10000 < right_x * right_x + right_y * right_y then
        (axes.set 2 right_x).set 3 (right_y + recoil_force)
      else
        axes.set 3 (axes.getD 3 0 + recoil_force)
    { buttons := state.buttons, axes := new_axes, dpad := state.dpad }
  else
    { buttons := state.buttons, axes := axes, dpad := state.dpad }

/-- Model of `DeadzoneModifier`: per-stick deadzone radii (defaults 0.2). -/
structure DeadzoneModifier where
  deadzone_left : ℚ := 1 / 5
  deadzone_right : ℚ := 1 / 5

/-- Model of `DeadzoneModifier.update`:
`deadzones = [left] * 2 + [right] * 2`, zero stick axis `i < 4` when
`abs(axes[i]) < deadzones[i]`, keep the trailing trigger axes. -/
def DeadzoneModifier.update (m : DeadzoneModifier) (state : FrameState) :
    FrameState :=
  let axes := state.axes
  let deadzones :=
    List.replicate 2 m.deadzone_left ++ List.replicate 2 m.deadzone_right
  let new_axes :=
    (List.range 4).map
      (fun i => if |axes.getD i 0| < deadzones.getD i 0 then 0 else axes.getD i 0)
  { buttons := state.buttons
    axes := new_axes ++ axes.drop 4
    dpad := state.dpad }

/-- Model of `HairTriggers.update` (also shipped in `deadzones.py`): right trigger
snaps to `1.0` strictly above the threshold, else to `-1.0`. -/
def HairTriggers.update (threshold : ℚ) (state : FrameState) : FrameState :=
  let axes := state.axes
  let rt := axes.getD 5 0
  { buttons := state.buttons
    axes := if threshold < rt then axes.set 5 1 else axes.set 5 (-1)
    dpad := state.dpad }

/-- One message dequeued by `TwitchChatModifier.update`: the listener only
enqueues truthy message dicts, observed through their `"msg"` field. -/
structure ChatMsg where
  msg : Option String

/-- Model of `TwitchChatModifier.update`; `front` is the head of the listener's
queue (`Option.none` models `queue.Empty`, returning the state untouched).
`"left"` nudges `axes[0]` down by `0.5` clamped at `-1.0`; `"right"`
nudges it up by `0.5` clamped at `1.0`. -/
def TwitchChatModifier.update (front : Option ChatMsg) (state : FrameState) :
    FrameState :=
  match front with
  | Option.none => state
  | some m =>
    let axes := state.axes
    if m.msg = some "left" then
      { buttons := state.buttons
        axes := axes.set 0 (max (-1) (axes.getD 0 0 - 1 / 2))
        dpad := state.dpad }
    else if m.msg = some "right" then
      { buttons := state.buttons
        axes := axes.set 0 (min 1 (axes.getD 0 0 + 1 / 2))
        dpad := state.dpad }
    else
      { buttons := state.buttons, axes := axes, dpad := state.dpad }

/-! ### Pipeline (`pipeline.py`) -/

/-- What one tick can observe of a registered generator: the outcome of
its `generate()` call (a frame, or a raised exception). -/
abbrev GenOutcome := Except PyErr FrameState

/-- What one tick can observe of an observer callback: normal return or a
raised exception (callbacks cannot alter the immutable frame). -/
abbrev Callback := FrameState → Except PyErr Unit

/-- Model of `InputPipeline` state: ordered generator and modifier lists, the two
observer-callback lists, the optional serial interface, the configured
send interval and the last-transmit timestamp (`time.time()` values as
rationals). -/
structure InputPipeline where
  generators : List GenOutcome
  modifiers : List (FrameState → FrameState)
  gen_callbacks : List Callback
  post_callbacks : List Callback
  serial : Option SerialInterface
  send_interval : ℚ
  last_send : ℚ

/-- Observable events of one `update()` call, in order. -/
inductive Event where
  | genCb (i : ℕ) (ok : Bool) : Event
  | postCb (i : ℕ) (ok : Bool) : Event
  | transmit (bytes : List ℕ) : Event
deriving DecidableEq, Repr

/-- Everything one `update()` call does: the callback invocations and
transmit (in order), the `last_send` field after the call, the exception
escaping the call (if any), and the returned value. -/
structure TickOutcome where
  events : List Event
  last_send : ℚ
  raised : Option PyErr
  result : Option FrameState
deriving DecidableEq, Repr

/-- Model of `InputPipeline.combine_generators`: `None` when no generator is
registered, else the first generator's `generate()` outcome. -/
def combine_generators (gens : List GenOutcome) : Option GenOutcome :=
  match gens with
  | [] => Option.none
  | g :: _ => some g

/-- Model of `InputPipeline.apply_modifiers`: left-to-right fold of `mod.update`. -/
def apply_modifiers (mods : List (FrameState → FrameState))
    (state : FrameState) : FrameState :=
  mods.foldl (fun s m => m s) state

/-- One `for cb in list(...): try cb(state) except Exception: pass` loop:
every callback is invoked in order and its exception is swallowed. -/
def runCallbacks (mk : ℕ → Bool → Event) (cbs : List Callback)
    (state : FrameState) : List Event :=
  cbs.enum.map (fun ic =>
    mk ic.1 (match ic.2 state with
             | Except.ok _ => true
             | Except.error _ => false))

/-- Model of `InputPipeline.update` at wall-clock time `now` (`time.time()`).
The generator's exception is NOT caught (`combine_generators` and the call
site have no handler), so it escapes with no callback run, no transform,
no transmit and `last_send` untouched.  Observer exceptions are swallowed
per callback.  The rate gate transmits only when a serial interface is
configured and `now - last_send >= send_interval`, and `last_send` is
assigned only after a successful `send_frame` (a raising `send_frame`
escapes before the assignment). -/
def InputPipeline.update (p : InputPipeline) (now : ℚ) : TickOutcome :=
  match combine_generators p.generators with
  | Option.none =>
      { events := [], last_send := p.last_send
        raised := Option.none, result := Option.none }
  | some (Except.error e) =>
      { events := [], last_send := p.last_send
        raised := some e, result := Option.none }
  | some (Except.ok state0) =>
    let genEvents := runCallbacks Event.genCb p.gen_callbacks state0
    let state1 := apply_modifiers p.modifiers state0
    let postEvents := runCallbacks Event.postCb p.post_callbacks state1
    match p.serial with
    | Option.none =>
        { events := genEvents ++ postEvents, last_send := p.last_send
          raised := Option.none, result := some state1 }
    | some si =>
      if p.send_interval ≤ now - p.last_send then
        match si.send_frame (some state1) with
        | Except.error e =>
            { events := genEvents ++ postEvents, last_send := p.last_send
              raised := some e, result := Option.none }
        | Except.ok bytes =>
            { events := genEvents ++ postEvents ++ [Event.transmit bytes]
              last_send := now
              raised := Option.none, result := some state1 }
      else
        { events := genEvents ++ postEvents, last_send := p.last_send
          raised := Option.none, result := some state1 }

/-- The indices of the post-generate callbacks an outcome invoked. -/
def invokedGen (evs : List Event) : List ℕ :=
  evs.filterMap (fun e =>
    match e with
    | Event.genCb i _ => some i
    | _ => Option.none)

/-- The indices of the post-transform callbacks an outcome invoked. -/
def invokedPost (evs : List Event) : List ℕ :=
  evs.filterMap (fun e =>
    match e with
    | Event.postCb i _ => some i
    | _ => Option.none)

/-- The byte strings an outcome transmitted to the transport. -/
def transmits (evs : List Event) : List (List ℕ) :=
  evs.filterMap (fun e =>
    match e with
    | Event.transmit bs => some bs
    | _ => Option.none)

/-! ### Theorems -/

lemma normalize_buttons_length (v : PyVal) :
    (_normalize_values v).buttons.length = 10 := by
  unfold _normalize_values
  cases v <;> simp
  split <;> simp [List.length_take]

lemma normalize_axes_length (v : PyVal) :
    (_normalize_values v).axes.length = 6 := by
  unfold _normalize_values
  cases v <;> simp
  split <;> simp [List.length_take]

lemma to_float_clamped_bounds (x : PyVal) :
    -1 ≤ _to_float_clamped x ∧ _to_float_clamped x ≤ 1 := by
  unfold _to_float_clamped
  split
  · exact ⟨le_max_left _ _, max_le (by norm_num) (min_le_left _ _)⟩
  · norm_num

lemma normalize_axes_bounds (v : PyVal) :
    ∀ a ∈ (_normalize_values v).axes, -1 ≤ a ∧ a ≤ 1 := by
  unfold _normalize_values
  cases v <;> intro a ha <;> simp at ha <;> try simp [ha]
  revert ha
  split <;> intro ha
  · rcases List.mem_append.mp (List.mem_of_mem_take ha) with h | h
    · obtain ⟨x, _, rfl⟩ := List.mem_map.mp h
      exact to_float_clamped_bounds x
    · simp at h; norm_num [h]
  · rcases List.mem_append.mp (List.mem_of_mem_take ha) with h | h
    · obtain ⟨x, _, rfl⟩ := List.mem_map.mp h
      exact to_float_clamped_bounds x
    · simp at h; norm_num [h]
  · simp at ha; norm_num [ha]

lemma clamp_int_cases (n : ℤ) :
    max (-1) (min 1 n) = -1 ∨ max (-1) (min 1 n) = 0 ∨ max (-1) (min 1 n) = 1 := by
  omega

lemma normalize_dpad_cases (v : PyVal) :
    ((_normalize_values v).dpad.1 = -1 ∨ (_normalize_values v).dpad.1 = 0 ∨
      (_normalize_values v).dpad.1 = 1) ∧
    ((_normalize_values v).dpad.2 = -1 ∨ (_normalize_values v).dpad.2 = 0 ∨
      (_normalize_values v).dpad.2 = 1) := by
  unfold _normalize_values
  cases v <;> simp
  split
  · split
    · exact ⟨clamp_int_cases _, clamp_int_cases _⟩
    · simp
  · split
    · exact ⟨clamp_int_cases _, clamp_int_cases _⟩
    · simp
  · simp

/-- C1: normalization (`FrameState.from_dict`) is a total function — every
Python value, however malformed, yields a frame with exactly 10 booleans,
exactly 6 axes each in `[-1, 1]`, and dpad components in `{-1, 0, 1}`. -/
theorem from_dict_total_invariant (v : PyVal) :
    (FrameState.from_dict v).invariant :=
  ⟨normalize_buttons_length v, normalize_axes_length v,
   normalize_axes_bounds v,
   (normalize_dpad_cases v).1, (normalize_dpad_cases v).2⟩

lemma map_clamp_eq_self (l : List ℚ) (h : ∀ a ∈ l, -1 ≤ a ∧ a ≤ 1) :
    l.map (fun q => max (-1) (min 1 q)) = l := by
  induction l with
  | nil => rfl
  | cons x xs ih =>
    obtain ⟨h1, h2⟩ := h x (List.mem_cons_self x xs)
    simp only [List.map_cons, List.cons.injEq]
    constructor
    · rw [min_eq_right h2, max_eq_right h1]
    · exact ih (fun a ha => h a (List.mem_cons_of_mem x ha))

lemma take_append_replicate {α : Type} (l : List α) (x : α) (n : ℕ)
    (h : l.length = n) : (l ++ List.replicate n x).take n = l := by
  subst h
  rw [List.take_append_eq_append_take]
  simp

/-- C3: normalizing the plain-form export of an invariant-respecting frame
reproduces it exactly: `FrameState.from_dict (f.to_dict) = f`. -/
theorem from_dict_to_dict_roundtrip (f : FrameState) (h : f.invariant) :
    FrameState.from_dict f.to_dict = f := by
  obtain ⟨hb, ha, hax, hd1, hd2⟩ := h
  have h1 : FrameState.from_dict f.to_dict =
      { buttons :=
          (((f.buttons.map PyVal.bool).map pyBool) ++ List.replicate 10 false).take 10
        axes :=
          (((f.axes.map PyVal.float).map _to_float_clamped) ++ List.replicate 6 0).take 6
        dpad := (max (-1) (min 1 f.dpad.1), max (-1) (min 1 f.dpad.2)) } := rfl
  rw [h1]
  have hbmap : (f.buttons.map PyVal.bool).map pyBool = f.buttons := by
    rw [List.map_map]
    have : pyBool ∘ PyVal.bool = id := by funext b; rfl
    rw [this, List.map_id]
  have hamap : (f.axes.map PyVal.float).map _to_float_clamped = f.axes := by
    rw [List.map_map]
    have : (_to_float_clamped ∘ PyVal.float) = fun q => max (-1) (min 1 q) := by
      funext q; rfl
    rw [this]
    exact map_clamp_eq_self f.axes hax
  rw [hbmap, hamap, take_append_replicate f.buttons false 10 hb,
    take_append_replicate f.axes 0 6 ha]
  have e1 : max (-1) (min 1 f.dpad.1) = f.dpad.1 := by omega
  have e2 : max (-1) (min 1 f.dpad.2) = f.dpad.2 := by omega
  rw [e1, e2]

/-- Witness for C3 at the default frame. -/
theorem from_dict_to_dict_roundtrip_witness :
    FrameState.default.invariant ∧
      FrameState.from_dict FrameState.default.to_dict = FrameState.default :=
  ⟨by decide, from_dict_to_dict_roundtrip FrameState.default (by decide)⟩

lemma f32le_length (q : ℚ) : (f32le q).length = 4 := rfl

lemma f32le_lt_256 (q : ℚ) : ∀ b ∈ f32le q, b < 256 := by
  intro b hb
  simp [f32le] at hb
  rcases hb with h | h | h | h <;> subst h <;> exact Nat.mod_lt _ (by norm_num)

lemma flatten_map_f32le_length (l : List ℚ) :
    ((l.map f32le).flatten).length = 4 * l.length := by
  induction l with
  | nil => rfl
  | cons x xs ih =>
    rw [List.map_cons, List.flatten_cons, List.length_append, ih, f32le_length,
      List.length_cons]
    ring

lemma pack_payload_length (p : Packet) :
    (u16le p.buttons ++
      (((p.axes ++ List.replicate 6 0).take 6).map f32le).flatten ++
      u8 p.dpad_code).length = 27 := by
  have hax : ((p.axes ++ List.replicate 6 0).take 6).length = 6 := by
    simp [List.length_take]
  rw [List.length_append, List.length_append, flatten_map_f32le_length, hax]
  norm_num [u16le, u8]

/-- C2: for every invariant-respecting frame, `send_frame` on an open port
writes exactly the encoder output `Packet.pack`, which is 29 bytes, each a
byte value, with byte 0 equal to `0xFF` and byte 28 equal to the sum of
bytes 1 through 27 inclusive modulo 256. -/
theorem pack_frame_layout (f : FrameState) (h : f.invariant) :
    ∃ bytes : List ℕ,
      SerialInterface.send_frame { ser := true } (some f) = Except.ok bytes ∧
      bytes =
        Packet.pack
          { buttons := buttons_to_bitmask f.buttons
            axes := f.axes
            dpad_code := dpad_encode f.dpad } ∧
      bytes.length = 29 ∧
      bytes.getD 0 0 = 0xFF ∧
      bytes.getD 28 0 = ((bytes.drop 1).take 27).sum % 256 ∧
      ∀ b ∈ bytes, b < 256 := by
  set p : Packet :=
    { buttons := buttons_to_bitmask f.buttons
      axes := f.axes
      dpad_code := dpad_encode f.dpad } with hp
  set payload : List ℕ :=
    u16le p.buttons ++ (((p.axes ++ List.replicate 6 0).take 6).map f32le).flatten ++
      u8 p.dpad_code with hpayload
  have hplen : payload.length = 27 := pack_payload_length p
  have hbytes : Packet.pack p = Packet.HEADER :: (payload ++ [payload.sum % 256]) := rfl
  refine ⟨Packet.pack p, rfl, rfl, ?_, ?_, ?_, ?_⟩
  · rw [hbytes, List.length_cons, List.length_append, hplen]
    rfl
  · rw [hbytes]; rfl
  · rw [hbytes]
    have h28 : (Packet.HEADER :: (payload ++ [payload.sum % 256])).getD 28 0 =
        (payload ++ [payload.sum % 256]).getD 27 0 := rfl
    rw [h28, List.getD_append_right _ _ _ _ (le_of_eq hplen), hplen]
    rw [List.drop_one, List.tail_cons, List.take_append_eq_append_take, hplen]
    simp [List.take_of_length_le (le_of_eq hplen)]
  · intro b hb
    rw [hbytes] at hb
    rcases List.mem_cons.mp hb with h1 | h1
    · rw [h1]; norm_num [Packet.HEADER]
    · rcases List.mem_append.mp h1 with h2 | h2
      · rw [hpayload] at h2
        rcases List.mem_append.mp h2 with h3 | h3
        · rcases List.mem_append.mp h3 with h4 | h4
          · simp [u16le] at h4
            rcases h4 with h5 | h5 <;> subst h5 <;> exact Nat.mod_lt _ (by norm_num)
          · obtain ⟨l, hl, hbl⟩ := List.mem_flatten.mp h4
            obtain ⟨q, _, rfl⟩ := List.mem_map.mp hl
            exact f32le_lt_256 q b hbl
        · simp [u8] at h3
          subst h3; exact Nat.mod_lt _ (by norm_num)
      · simp at h2
        subst h2; exact Nat.mod_lt _ (by norm_num)

/-- Witness for C2 at the default frame. -/
theorem pack_frame_layout_witness :
    FrameState.default.invariant ∧
      ∃ bytes : List ℕ,
        SerialInterface.send_frame { ser := true } (some FrameState.default) =
          Except.ok bytes ∧
        bytes =
          Packet.pack
            { buttons := buttons_to_bitmask FrameState.default.buttons
              axes := FrameState.default.axes
              dpad_code := dpad_encode FrameState.default.dpad } ∧
        bytes.length = 29 ∧
        bytes.getD 0 0 = 0xFF ∧
        bytes.getD 28 0 = ((bytes.drop 1).take 27).sum % 256 ∧
        ∀ b ∈ bytes, b < 256 :=
  ⟨by decide, pack_frame_layout FrameState.default (by decide)⟩

lemma list_eq_six (l : List ℚ) (h : l.length = 6) :
    ∃ a0 a1 a2 a3 a4 a5, l = [a0, a1, a2, a3, a4, a5] := by
  rcases l with _ | ⟨a0, _ | ⟨a1, _ | ⟨a2, _ | ⟨a3, _ | ⟨a4, _ | ⟨a5, rest⟩⟩⟩⟩⟩⟩ <;>
    simp at h
  exact ⟨a0, a1, a2, a3, a4, a5, by simp [h]⟩

/-- C8: the deadzone modifier zeroes each stick axis exactly when its
absolute value is strictly below the applicable per-stick threshold
(left threshold for axes 0–1, right for axes 2–3), passes it through
unchanged otherwise (so a value exactly at the threshold is not zeroed),
and never alters the trigger axes, buttons, or dpad. -/
theorem deadzone_update_spec (m : DeadzoneModifier) (f : FrameState)
    (h : f.invariant) :
    (m.update f).buttons = f.buttons ∧
    (m.update f).dpad = f.dpad ∧
    (m.update f).axes.length = 6 ∧
    (∀ i, i < 4 →
      (m.update f).axes.getD i 0 =
        if |f.axes.getD i 0| < (if i < 2 then m.deadzone_left else m.deadzone_right)
        then 0 else f.axes.getD i 0) ∧
    (∀ i, 4 ≤ i → (m.update f).axes.getD i 0 = f.axes.getD i 0) ∧
    (∀ i, i < 4 →
      |f.axes.getD i 0| = (if i < 2 then m.deadzone_left else m.deadzone_right) →
      (m.update f).axes.getD i 0 = f.axes.getD i 0) := by
  obtain ⟨a0, a1, a2, a3, a4, a5, hax⟩ := list_eq_six f.axes h.2.1
  refine ⟨rfl, rfl, ?_, ?_, ?_, ?_⟩
  · simp [DeadzoneModifier.update, hax]
  · intro i hi
    interval_cases i <;>
      simp [DeadzoneModifier.update, hax, List.getD, List.range_succ]
  · intro i hi
    rcases Nat.lt_or_ge i 6 with h6 | h6
    · interval_cases i <;>
        simp [DeadzoneModifier.update, hax, List.getD, List.range_succ]
    · have hlo : (m.update f).axes.length ≤ i := by
        simp [DeadzoneModifier.update, hax]; omega
      have hfo : f.axes.length ≤ i := by rw [h.2.1]; omega
      rw [List.getD_eq_default _ _ hlo, List.getD_eq_default _ _ hfo]
  · intro i hi heq
    interval_cases i <;>
      simp [DeadzoneModifier.update, hax, List.getD, List.range_succ] at heq ⊢ <;>
      simp [heq, lt_irrefl]

/-- A concrete frame holding the boundary value `0.2` on left-stick X and
the sub-threshold value `0.1` on right-stick X. -/
def dzFrame : FrameState :=
  { buttons := List.replicate 10 false
    axes := [1/5, 0, 1/10, 0, 0, 0]
    dpad := (0, 0) }

lemma dzFrame_invariant : dzFrame.invariant := by
  unfold dzFrame FrameState.invariant
  refine ⟨by simp, by simp, ?_, by simp, by simp⟩
  intro a ha
  simp at ha
  rcases ha with h | h | h | h <;> norm_num [h]

/-- Witness for C8 at the default-threshold modifier and `dzFrame`. -/
theorem deadzone_update_spec_witness :
    dzFrame.invariant ∧
    ((({} : DeadzoneModifier).update dzFrame).buttons = dzFrame.buttons ∧
     (({} : DeadzoneModifier).update dzFrame).dpad = dzFrame.dpad ∧
     (({} : DeadzoneModifier).update dzFrame).axes.length = 6 ∧
     (∀ i, i < 4 →
       (({} : DeadzoneModifier).update dzFrame).axes.getD i 0 =
         if |dzFrame.axes.getD i 0| <
             (if i < 2 then ({} : DeadzoneModifier).deadzone_left
              else ({} : DeadzoneModifier).deadzone_right)
         then 0 else dzFrame.axes.getD i 0) ∧
     (∀ i, 4 ≤ i →
       (({} : DeadzoneModifier).update dzFrame).axes.getD i 0 =
         dzFrame.axes.getD i 0) ∧
     (∀ i, i < 4 →
       |dzFrame.axes.getD i 0| =
         (if i < 2 then ({} : DeadzoneModifier).deadzone_left
          else ({} : DeadzoneModifier).deadzone_right) →
       (({} : DeadzoneModifier).update dzFrame).axes.getD i 0 =
         dzFrame.axes.getD i 0)) :=
  ⟨dzFrame_invariant, deadzone_update_spec {} dzFrame dzFrame_invariant⟩

lemma antirecoil_axes_above' (m : BasicAntiRecoilModifier) (f : FrameState)
    (a0 a1 a2 a3 a4 a5 : ℚ) (hax : f.axes = [a0, a1, a2, a3, a4, a5])
    (ht : m.trigger_threshold ≤ a5) :
    (m.update f).axes = [a0, a1, a2, a3 + |m.recoil_strength| * a5, a4, a5] := by
  unfold BasicAntiRecoilModifier.update
  rw [hax]
  simp only [List.getD_cons_succ, List.getD_cons_zero, if_pos ht]
  split <;> simp [List.set]

lemma antirecoil_axes_above (m : BasicAntiRecoilModifier) (f : FrameState)
    (a0 a1 a2 a3 a4 a5 : ℚ) (hax : f.axes = [a0, a1, a2, a3, a4, a5])
    (hs : 0 ≤ m.recoil_strength) (ht : m.trigger_threshold ≤ a5) :
    (m.update f).axes = [a0, a1, a2, a3 + m.recoil_strength * a5, a4, a5] := by
  rw [antirecoil_axes_above' m f a0 a1 a2 a3 a4 a5 hax ht, abs_of_nonneg hs]

lemma antirecoil_below (m : BasicAntiRecoilModifier) (f : FrameState)
    (hlt : f.axes.getD 5 0 < m.trigger_threshold) : m.update f = f := by
  unfold BasicAntiRecoilModifier.update
  dsimp only
  rw [if_neg (not_le.mpr hlt)]

lemma antirecoil_buttons (m : BasicAntiRecoilModifier) (f : FrameState) :
    (m.update f).buttons = f.buttons := by
  unfold BasicAntiRecoilModifier.update
  dsimp only
  split <;> [skip; rfl]
  split <;> rfl

lemma antirecoil_dpad (m : BasicAntiRecoilModifier) (f : FrameState) :
    (m.update f).dpad = f.dpad := by
  unfold BasicAntiRecoilModifier.update
  dsimp only
  split <;> [skip; rfl]
  split <;> rfl

/-- C7: for any nonnegative configured strength (the shipped modifier has
`recoil_strength = 0.3`), when the right trigger is at or above the
threshold the anti-recoil modifier adds exactly `strength × trigger` to
right-stick Y and changes nothing else; strictly below the threshold the
frame is returned unchanged. -/
theorem antirecoil_update_spec (m : BasicAntiRecoilModifier) (f : FrameState)
    (h : f.invariant) (hs : 0 ≤ m.recoil_strength) :
    (m.trigger_threshold ≤ f.axes.getD 5 0 →
      (m.update f).axes.getD 3 0 =
        f.axes.getD 3 0 + m.recoil_strength * f.axes.getD 5 0 ∧
      (∀ i, i ≠ 3 → (m.update f).axes.getD i 0 = f.axes.getD i 0) ∧
      (m.update f).axes.length = 6 ∧
      (m.update f).buttons = f.buttons ∧
      (m.update f).dpad = f.dpad) ∧
    (f.axes.getD 5 0 < m.trigger_threshold → m.update f = f) := by
  obtain ⟨a0, a1, a2, a3, a4, a5, hax⟩ := list_eq_six f.axes h.2.1
  constructor
  · intro ht
    rw [hax] at ht
    have ht5 : m.trigger_threshold ≤ a5 := ht
    have hupd := antirecoil_axes_above m f a0 a1 a2 a3 a4 a5 hax hs ht5
    refine ⟨?_, ?_, ?_, ?_, ?_⟩
    · rw [hupd, hax]; rfl
    · intro i hi
      rcases Nat.lt_or_ge i 6 with h6 | h6
      · interval_cases i <;> simp_all [List.getD]
      · have hlo : (m.update f).axes.length ≤ i := by rw [hupd]; simpa using h6
        have hfo : f.axes.length ≤ i := by rw [h.2.1]; omega
        rw [List.getD_eq_default _ _ hlo, List.getD_eq_default _ _ hfo]
    · rw [hupd]; rfl
    · exact antirecoil_buttons m f
    · exact antirecoil_dpad m f
  · exact fun hlt => antirecoil_below m f hlt

/-- A concrete frame with right-stick Y at `0.5` and the right trigger
fully pulled. -/
def arFrame : FrameState :=
  { buttons := List.replicate 10 false
    axes := [0, 0, 0, 1/2, 0, 1]
    dpad := (0, 0) }

lemma arFrame_invariant : arFrame.invariant := by
  unfold arFrame FrameState.invariant
  refine ⟨by simp, by simp, ?_, by simp, by simp⟩
  intro a ha
  simp at ha
  rcases ha with h | h | h | h <;> norm_num [h]

/-- Witness for C7 at the shipped modifier (strength `0.3`, threshold
`0.1`) and `arFrame`. -/
theorem antirecoil_update_spec_witness :
    arFrame.invariant ∧ (0 : ℚ) ≤ ({} : BasicAntiRecoilModifier).recoil_strength ∧
    ((({} : BasicAntiRecoilModifier).trigger_threshold ≤ arFrame.axes.getD 5 0 →
      (({} : BasicAntiRecoilModifier).update arFrame).axes.getD 3 0 =
        arFrame.axes.getD 3 0 +
          ({} : BasicAntiRecoilModifier).recoil_strength * arFrame.axes.getD 5 0 ∧
      (∀ i, i ≠ 3 →
        (({} : BasicAntiRecoilModifier).update arFrame).axes.getD i 0 =
          arFrame.axes.getD i 0) ∧
      (({} : BasicAntiRecoilModifier).update arFrame).axes.length = 6 ∧
      (({} : BasicAntiRecoilModifier).update arFrame).buttons = arFrame.buttons ∧
      (({} : BasicAntiRecoilModifier).update arFrame).dpad = arFrame.dpad) ∧
    (arFrame.axes.getD 5 0 < ({} : BasicAntiRecoilModifier).trigger_threshold →
      ({} : BasicAntiRecoilModifier).update arFrame = arFrame)) :=
  ⟨arFrame_invariant, by norm_num,
   antirecoil_update_spec {} arFrame arFrame_invariant (by norm_num)⟩

lemma deadzone_preserves_invariant (dm : DeadzoneModifier) (f : FrameState)
    (h : f.invariant) : (dm.update f).invariant := by
  obtain ⟨hb, hl, hbd, hd1, hd2⟩ := h
  obtain ⟨a0, a1, a2, a3, a4, a5, hax⟩ := list_eq_six f.axes hl
  have hmem : ∀ a ∈ [a0, a1, a2, a3, a4, a5], -1 ≤ a ∧ a ≤ 1 := hax ▸ hbd
  have hupd : (dm.update f).axes =
      [if |a0| < dm.deadzone_left then 0 else a0,
       if |a1| < dm.deadzone_left then 0 else a1,
       if |a2| < dm.deadzone_right then 0 else a2,
       if |a3| < dm.deadzone_right then 0 else a3, a4, a5] := by
    unfold DeadzoneModifier.update
    rw [hax]
    simp [List.range_succ, List.getD]
  refine ⟨hb, ?_, ?_, hd1, hd2⟩
  · rw [hupd]; rfl
  · rw [hupd]
    intro a ha
    simp only [List.mem_cons, List.not_mem_nil, or_false] at ha
    rcases ha with rfl | rfl | rfl | rfl | rfl | rfl
    · split
      · norm_num
      · exact hmem _ (by simp)
    · split
      · norm_num
      · exact hmem _ (by simp)
    · split
      · norm_num
      · exact hmem _ (by simp)
    · split
      · norm_num
      · exact hmem _ (by simp)
    · exact hmem _ (by simp)
    · exact hmem _ (by simp)

lemma twitchchat_preserves_invariant (front : Option ChatMsg) (f : FrameState)
    (h : f.invariant) : (TwitchChatModifier.update front f).invariant := by
  obtain ⟨hb, hl, hbd, hd1, hd2⟩ := h
  obtain ⟨a0, a1, a2, a3, a4, a5, hax⟩ := list_eq_six f.axes hl
  have hmem : ∀ a ∈ [a0, a1, a2, a3, a4, a5], -1 ≤ a ∧ a ≤ 1 := hax ▸ hbd
  have h0 := hmem a0 (by simp)
  rcases front with _ | m
  · exact ⟨hb, hl, hbd, hd1, hd2⟩
  unfold TwitchChatModifier.update
  dsimp only
  split
  · refine ⟨hb, ?_, ?_, hd1, hd2⟩
    · rw [hax]; rfl
    · rw [hax]
      intro a ha
      simp only [List.set, List.getD_cons_zero, List.mem_cons,
        List.not_mem_nil, or_false] at ha
      rcases ha with rfl | rfl | rfl | rfl | rfl | rfl
      · refine ⟨le_max_left _ _, max_le (by norm_num) ?_⟩
        linarith [h0.2]
      · exact hmem _ (by simp)
      · exact hmem _ (by simp)
      · exact hmem _ (by simp)
      · exact hmem _ (by simp)
      · exact hmem _ (by simp)
  · split
    · refine ⟨hb, ?_, ?_, hd1, hd2⟩
      · rw [hax]; rfl
      · rw [hax]
        intro a ha
        simp only [List.set, List.getD_cons_zero, List.mem_cons,
          List.not_mem_nil, or_false] at ha
        rcases ha with rfl | rfl | rfl | rfl | rfl | rfl
        · refine ⟨le_min (by norm_num) ?_, min_le_left _ _⟩
          linarith [h0.1]
        · exact hmem _ (by simp)
        · exact hmem _ (by simp)
        · exact hmem _ (by simp)
        · exact hmem _ (by simp)
        · exact hmem _ (by simp)
    · exact ⟨hb, hl, hbd, hd1, hd2⟩

lemma hairtriggers_preserves_invariant (t : ℚ) (f : FrameState)
    (h : f.invariant) : (HairTriggers.update t f).invariant := by
  obtain ⟨hb, hl, hbd, hd1, hd2⟩ := h
  obtain ⟨a0, a1, a2, a3, a4, a5, hax⟩ := list_eq_six f.axes hl
  have hmem : ∀ a ∈ [a0, a1, a2, a3, a4, a5], -1 ≤ a ∧ a ≤ 1 := hax ▸ hbd
  unfold HairTriggers.update
  dsimp only
  refine ⟨hb, ?_, ?_, hd1, hd2⟩
  · rw [hax]
    split <;> rfl
  · rw [hax]
    split <;>
    · intro a ha
      simp only [List.set, List.mem_cons, List.not_mem_nil, or_false] at ha
      rcases ha with rfl | rfl | rfl | rfl | rfl | rfl
      · exact hmem _ (by simp)
      · exact hmem _ (by simp)
      · exact hmem _ (by simp)
      · exact hmem _ (by simp)
      · exact hmem _ (by simp)
      · norm_num

lemma antirecoil_invariant_of_bounded (m : BasicAntiRecoilModifier)
    (f : FrameState) (h : f.invariant)
    (hbound : m.trigger_threshold ≤ f.axes.getD 5 0 →
      -1 ≤ f.axes.getD 3 0 + |m.recoil_strength| * f.axes.getD 5 0 ∧
      f.axes.getD 3 0 + |m.recoil_strength| * f.axes.getD 5 0 ≤ 1) :
    (m.update f).invariant := by
  obtain ⟨hb, hl, hbd, hd1, hd2⟩ := h
  obtain ⟨a0, a1, a2, a3, a4, a5, hax⟩ := list_eq_six f.axes hl
  have hmem : ∀ a ∈ [a0, a1, a2, a3, a4, a5], -1 ≤ a ∧ a ≤ 1 := hax ▸ hbd
  rcases le_or_lt m.trigger_threshold a5 with ht | ht
  · have hupd := antirecoil_axes_above' m f a0 a1 a2 a3 a4 a5 hax ht
    have hcond := hbound (by rw [hax]; exact ht)
    rw [hax] at hcond
    simp only [List.getD_cons_succ, List.getD_cons_zero] at hcond
    refine ⟨?_, ?_, ?_, ?_, ?_⟩
    · rw [antirecoil_buttons]; exact hb
    · rw [hupd]; rfl
    · rw [hupd]
      intro a ha
      simp only [List.mem_cons, List.not_mem_nil, or_false] at ha
      rcases ha with rfl | rfl | rfl | rfl | rfl | rfl
      · exact hmem _ (by simp)
      · exact hmem _ (by simp)
      · exact hmem _ (by simp)
      · exact hcond
      · exact hmem _ (by simp)
      · exact hmem _ (by simp)
    · rw [antirecoil_dpad]; exact hd1
    · rw [antirecoil_dpad]; exact hd2
  · rw [antirecoil_below m f (by rw [hax]; exact ht)]
    exact ⟨hb, hl, hbd, hd1, hd2⟩

/-- The frame that breaks the anti-recoil invariant claim: right-stick Y
already at `1.0` while the right trigger is fully pulled. -/
def arBadFrame : FrameState :=
  { buttons := List.replicate 10 false
    axes := [0, 0, 0, 1, 0, 1]
    dpad := (0, 0) }

lemma arBadFrame_invariant : arBadFrame.invariant := by
  unfold arBadFrame FrameState.invariant
  refine ⟨by simp, by simp, ?_, by simp, by simp⟩
  intro a ha
  fin_cases ha <;> norm_num

/-- Counterexample to C6: the shipped anti-recoil modifier, applied to the
invariant-respecting `arBadFrame`, outputs right-stick Y = `1.3` and a
frame violating the data-model invariants. -/
theorem antirecoil_invariant_counterexample :
    arBadFrame.invariant ∧
    (({} : BasicAntiRecoilModifier).update arBadFrame).axes.getD 3 0 = 13/10 ∧
    ¬ (({} : BasicAntiRecoilModifier).update arBadFrame).invariant := by
  have hupd := antirecoil_axes_above' ({} : BasicAntiRecoilModifier) arBadFrame
    0 0 0 1 0 1 rfl (by norm_num)
  have habs : |({} : BasicAntiRecoilModifier).recoil_strength| = 3 / 10 :=
    abs_of_nonneg (by norm_num)
  have hax2 : (({} : BasicAntiRecoilModifier).update arBadFrame).axes =
      [0, 0, 0, 13/10, 0, 1] := by
    rw [hupd, habs]
    norm_num
  have h3 : (({} : BasicAntiRecoilModifier).update arBadFrame).axes.getD 3 0 =
      13/10 := by
    rw [hax2]
    rfl
  refine ⟨arBadFrame_invariant, h3, ?_⟩
  intro hinv
  have hmemv : (13/10 : ℚ) ∈
      (({} : BasicAntiRecoilModifier).update arBadFrame).axes := by
    rw [hax2]
    simp
  have hle := (hinv.2.2.1 _ hmemv).2
  norm_num at hle

/-- C6 (amended): the deadzone, hair-trigger and chat-override modifiers
always return an invariant-respecting frame; the anti-recoil modifier
preserves buttons, dpad and the other axes but adds
`|strength| × trigger` to right-stick Y without clamping, so its output is
invariant-respecting exactly under the extra hypothesis that the
compensated value stays within `[-1, 1]` (violated e.g. by
`arBadFrame`). -/
theorem modifiers_invariant_amended (f : FrameState) (h : f.invariant)
    (dm : DeadzoneModifier) (front : Option ChatMsg) (t : ℚ)
    (m : BasicAntiRecoilModifier)
    (hbound : m.trigger_threshold ≤ f.axes.getD 5 0 →
      -1 ≤ f.axes.getD 3 0 + |m.recoil_strength| * f.axes.getD 5 0 ∧
      f.axes.getD 3 0 + |m.recoil_strength| * f.axes.getD 5 0 ≤ 1) :
    (dm.update f).invariant ∧
    (TwitchChatModifier.update front f).invariant ∧
    (HairTriggers.update t f).invariant ∧
    (m.update f).invariant :=
  ⟨deadzone_preserves_invariant dm f h,
   twitchchat_preserves_invariant front f h,
   hairtriggers_preserves_invariant t f h,
   antirecoil_invariant_of_bounded m f h hbound⟩

/-- Witness for the amended C6 at `arFrame` (right-stick Y `0.5`, trigger
`1.0`: the compensated value `0.8` stays in range). -/
theorem modifiers_invariant_amended_witness :
    arFrame.invariant ∧
    ((({} : BasicAntiRecoilModifier).trigger_threshold ≤ arFrame.axes.getD 5 0 →
       -1 ≤ arFrame.axes.getD 3 0 +
          |({} : BasicAntiRecoilModifier).recoil_strength| * arFrame.axes.getD 5 0 ∧
       arFrame.axes.getD 3 0 +
          |({} : BasicAntiRecoilModifier).recoil_strength| * arFrame.axes.getD 5 0 ≤ 1) ∧
     ((({} : DeadzoneModifier).update arFrame).invariant ∧
      (TwitchChatModifier.update (some { msg := some "left" }) arFrame).invariant ∧
      (HairTriggers.update (1/10) arFrame).invariant ∧
      (({} : BasicAntiRecoilModifier).update arFrame).invariant)) := by
  have hbound : ({} : BasicAntiRecoilModifier).trigger_threshold ≤
      arFrame.axes.getD 5 0 →
      -1 ≤ arFrame.axes.getD 3 0 +
        |({} : BasicAntiRecoilModifier).recoil_strength| * arFrame.axes.getD 5 0 ∧
      arFrame.axes.getD 3 0 +
        |({} : BasicAntiRecoilModifier).recoil_strength| * arFrame.axes.getD 5 0 ≤ 1 := by
    intro _
    have habs : |({} : BasicAntiRecoilModifier).recoil_strength| = 3 / 10 :=
      abs_of_nonneg (by norm_num)
    rw [habs]
    constructor <;> norm_num [arFrame, List.getD]
  exact ⟨arFrame_invariant, hbound,
    modifiers_invariant_amended arFrame arFrame_invariant {}
      (some { msg := some "left" }) (1/10) {} hbound⟩

/-! ### Pipeline theorems -/

lemma invokedGen_append (a b : List Event) :
    invokedGen (a ++ b) = invokedGen a ++ invokedGen b := by
  simp [invokedGen]

lemma invokedPost_append (a b : List Event) :
    invokedPost (a ++ b) = invokedPost a ++ invokedPost b := by
  simp [invokedPost]

lemma transmits_append (a b : List Event) :
    transmits (a ++ b) = transmits a ++ transmits b := by
  simp [transmits]

lemma invokedGen_runCallbacks_gen (cbs : List Callback) (s : FrameState) :
    invokedGen (runCallbacks Event.genCb cbs s) = List.range cbs.length := by
  unfold invokedGen runCallbacks
  rw [List.filterMap_map]
  have : ∀ ic : ℕ × Callback, ic ∈ cbs.enum →
      ((fun e => match e with
        | Event.genCb i _ => some i
        | _ => Option.none) ∘ fun ic =>
          Event.genCb ic.1 (match ic.2 s with
            | Except.ok _ => true
            | Except.error _ => false)) ic = some ic.1 := by
    intro ic _; rfl
  rw [List.filterMap_congr this, ← List.enum_map_fst cbs]
  exact congrFun (List.filterMap_eq_map Prod.fst) cbs.enum

lemma invokedPost_runCallbacks_post (cbs : List Callback) (s : FrameState) :
    invokedPost (runCallbacks Event.postCb cbs s) = List.range cbs.length := by
  unfold invokedPost runCallbacks
  rw [List.filterMap_map]
  have : ∀ ic : ℕ × Callback, ic ∈ cbs.enum →
      ((fun e => match e with
        | Event.postCb i _ => some i
        | _ => Option.none) ∘ fun ic =>
          Event.postCb ic.1 (match ic.2 s with
            | Except.ok _ => true
            | Except.error _ => false)) ic = some ic.1 := by
    intro ic _; rfl
  rw [List.filterMap_congr this, ← List.enum_map_fst cbs]
  exact congrFun (List.filterMap_eq_map Prod.fst) cbs.enum

lemma invokedGen_runCallbacks_post (cbs : List Callback) (s : FrameState) :
    invokedGen (runCallbacks Event.postCb cbs s) = [] := by
  unfold invokedGen runCallbacks
  rw [List.filterMap_map]
  apply List.filterMap_eq_nil_iff.mpr
  intro ic _; rfl

lemma invokedPost_runCallbacks_gen (cbs : List Callback) (s : FrameState) :
    invokedPost (runCallbacks Event.genCb cbs s) = [] := by
  unfold invokedPost runCallbacks
  rw [List.filterMap_map]
  apply List.filterMap_eq_nil_iff.mpr
  intro ic _; rfl

lemma transmits_runCallbacks_gen (cbs : List Callback) (s : FrameState) :
    transmits (runCallbacks Event.genCb cbs s) = [] := by
  unfold transmits runCallbacks
  rw [List.filterMap_map]
  apply List.filterMap_eq_nil_iff.mpr
  intro ic _; rfl

lemma transmits_runCallbacks_post (cbs : List Callback) (s : FrameState) :
    transmits (runCallbacks Event.postCb cbs s) = [] := by
  unfold transmits runCallbacks
  rw [List.filterMap_map]
  apply List.filterMap_eq_nil_iff.mpr
  intro ic _; rfl

lemma transmits_nil : transmits ([] : List Event) = [] := rfl

lemma transmits_single (bs : List ℕ) : transmits [Event.transmit bs] = [bs] := rfl

lemma update_transmit_char (p : InputPipeline) (now : ℚ) :
    (transmits (p.update now).events ≠ [] →
      p.serial.isSome = true ∧ p.send_interval ≤ now - p.last_send) ∧
    ((transmits (p.update now).events ≠ [] ∧ (p.update now).last_send = now) ∨
     (transmits (p.update now).events = [] ∧ (p.update now).last_send = p.last_send)) := by
  unfold InputPipeline.update
  rcases hg : combine_generators p.generators with _ | g
  · simp [transmits_nil]
  rcases g with e | s0
  · simp [transmits_nil]
  rcases hs : p.serial with _ | si
  · simp only [transmits_append, transmits_runCallbacks_gen,
      transmits_runCallbacks_post, List.append_nil]
    simp
  by_cases hgate : p.send_interval ≤ now - p.last_send
  · unfold SerialInterface.send_frame
    cases hser : si.ser
    · simp only [hgate, hser, if_true, if_false, Bool.false_eq_true]
      simp only [transmits_append, transmits_runCallbacks_gen,
        transmits_runCallbacks_post, List.append_nil]
      simp
    · simp only [hgate, hser, if_true, if_false]
      simp only [transmits_append, transmits_runCallbacks_gen,
        transmits_runCallbacks_post, transmits_single, List.nil_append,
        List.append_nil]
      simp [hgate]
  · simp only [hgate, if_false]
    simp only [transmits_append, transmits_runCallbacks_gen,
      transmits_runCallbacks_post, List.append_nil]
    simp

/-- C4: the rate gate.  A tick transmits only when a serial interface is
configured and `now - last_send ≥ send_interval`; `last_send` is updated
to `now` exactly on a tick that actually transmits and is left unchanged
on a skipped tick; consequently two consecutive ticks issued closer
together than the configured interval yield at most one transmit. -/
theorem rate_gate (p : InputPipeline) (t1 t2 : ℚ)
    (hclose : t2 - t1 < p.send_interval) :
    (∀ now, transmits (p.update now).events ≠ [] →
        p.serial.isSome = true ∧ p.send_interval ≤ now - p.last_send) ∧
    (∀ now,
        (transmits (p.update now).events ≠ [] ∧ (p.update now).last_send = now) ∨
        (transmits (p.update now).events = [] ∧
          (p.update now).last_send = p.last_send)) ∧
    ¬ (transmits (p.update t1).events ≠ [] ∧
        transmits (({ p with last_send := (p.update t1).last_send }).update t2).events
          ≠ []) := by
  refine ⟨fun now => (update_transmit_char p now).1,
    fun now => (update_transmit_char p now).2, ?_⟩
  rintro ⟨h1, h2⟩
  have hlast : (p.update t1).last_send = t1 := by
    rcases (update_transmit_char p t1).2 with ⟨_, hl⟩ | ⟨hnil, _⟩
    · exact hl
    · exact absurd hnil h1
  have hgate2 := ((update_transmit_char
    ({ p with last_send := (p.update t1).last_send }) t2).1 h2).2
  rw [hlast] at hgate2
  exact absurd hgate2 (not_le.mpr hclose)

/-- A concrete pipeline: one healthy generator, an open port, interval 1,
last transmit at time 0. -/
def tickPipeline : InputPipeline :=
  { generators := [Except.ok FrameState.default]
    modifiers := []
    gen_callbacks := []
    post_callbacks := []
    serial := some { ser := true }
    send_interval := 1
    last_send := 0 }

/-- Witness for C4 at `tickPipeline` with ticks at times 1 and 3/2
(closer together than the interval 1). -/
theorem rate_gate_witness :
    ((3/2 : ℚ) - 1 < tickPipeline.send_interval) ∧
    ((∀ now, transmits (tickPipeline.update now).events ≠ [] →
        tickPipeline.serial.isSome = true ∧
        tickPipeline.send_interval ≤ now - tickPipeline.last_send) ∧
     (∀ now,
        (transmits (tickPipeline.update now).events ≠ [] ∧
          (tickPipeline.update now).last_send = now) ∨
        (transmits (tickPipeline.update now).events = [] ∧
          (tickPipeline.update now).last_send = tickPipeline.last_send)) ∧
     ¬ (transmits (tickPipeline.update 1).events ≠ [] ∧
        transmits (({ tickPipeline with
          last_send := (tickPipeline.update 1).last_send }).update (3/2)).events
          ≠ [])) :=
  ⟨by norm_num [tickPipeline], rate_gate tickPipeline 1 (3/2) (by norm_num [tickPipeline])⟩

/-- The pipeline whose only generator raises. -/
def genFailPipeline : InputPipeline :=
  { generators := [Except.error PyErr.other]
    modifiers := []
    gen_callbacks := []
    post_callbacks := []
    serial := Option.none
    send_interval := 1
    last_send := 0 }

/-- Counterexample to C5: when the first registered generator's
`generate()` raises, `InputPipeline.update` does NOT treat it as "no frame
this tick" — the exception escapes the call (`raised = some e`), so a tick
loop around `update` crashes (`run_loop` catches only
`KeyboardInterrupt`). -/
theorem generator_exception_escapes_counterexample :
    genFailPipeline.update 1 =
      { events := [], last_send := 0
        raised := some PyErr.other, result := Option.none } := rfl

/-- C5 (amended): a generator exception is not caught by the pipeline: it
propagates out of `InputPipeline.update` (rather than being absorbed as
"no frame this tick"); on such a tick no callback runs, no transform and
no transmit happen, `last_send` is unchanged, and nothing is returned. -/
theorem generator_exception_escapes (p : InputPipeline) (now : ℚ) (e : PyErr)
    (gs : List GenOutcome) (hg : p.generators = Except.error e :: gs) :
    p.update now =
      { events := [], last_send := p.last_send
        raised := some e, result := Option.none } := by
  unfold InputPipeline.update combine_generators
  rw [hg]

/-- Witness for the amended C5 at `genFailPipeline`. -/
theorem generator_exception_escapes_witness :
    genFailPipeline.generators = Except.error PyErr.other :: [] ∧
    genFailPipeline.update 1 =
      { events := [], last_send := genFailPipeline.last_send
        raised := some PyErr.other, result := Option.none } :=
  ⟨rfl, generator_exception_escapes genFailPipeline 1 PyErr.other [] rfl⟩

/-- C9: observer isolation.  For any tick whose generator returns a frame
and whose transmit step does not itself fault, `update` completes normally
no matter what the registered observer callbacks do (they are arbitrary
here, including raising ones): every callback of both lists is invoked in
registration order, the modifier fold still produces the result, and the
transmit step still runs exactly as dictated by the rate gate. -/
theorem observer_isolation (p : InputPipeline) (now : ℚ) (s0 : FrameState)
    (hgen : p.generators.head? = some (Except.ok s0))
    (hser : ∀ si, p.serial = some si → si.ser = true) :
    (p.update now).raised = Option.none ∧
    (p.update now).result = some (apply_modifiers p.modifiers s0) ∧
    invokedGen (p.update now).events = List.range p.gen_callbacks.length ∧
    invokedPost (p.update now).events = List.range p.post_callbacks.length ∧
    (transmits (p.update now).events ≠ [] ↔
      p.serial.isSome = true ∧ p.send_interval ≤ now - p.last_send) := by
  have hcomb : combine_generators p.generators = some (Except.ok s0) := by
    rcases hp : p.generators with _ | ⟨g, gs⟩
    · rw [hp] at hgen; simp at hgen
    · rw [hp] at hgen
      simp at hgen
      rw [hgen]
      rfl
  unfold InputPipeline.update
  rw [hcomb]
  rcases hs : p.serial with _ | si
  · simp only [invokedGen_append, invokedPost_append, transmits_append,
      invokedGen_runCallbacks_gen, invokedGen_runCallbacks_post,
      invokedPost_runCallbacks_gen, invokedPost_runCallbacks_post,
      transmits_runCallbacks_gen, transmits_runCallbacks_post,
      List.append_nil, List.nil_append]
    simp
  have hopen : si.ser = true := hser si hs
  by_cases hgate : p.send_interval ≤ now - p.last_send
  · unfold SerialInterface.send_frame
    simp only [hopen, if_true, hgate]
    simp only [invokedGen_append, invokedPost_append, transmits_append,
      invokedGen_runCallbacks_gen, invokedGen_runCallbacks_post,
      invokedPost_runCallbacks_gen, invokedPost_runCallbacks_post,
      transmits_runCallbacks_gen, transmits_runCallbacks_post,
      transmits_single, List.append_nil, List.nil_append]
    have hg1 : invokedGen [Event.transmit (Packet.pack
        { buttons := buttons_to_bitmask (apply_modifiers p.modifiers s0).buttons
          axes := (apply_modifiers p.modifiers s0).axes
          dpad_code := dpad_encode (apply_modifiers p.modifiers s0).dpad })] = [] := rfl
    have hg2 : invokedPost [Event.transmit (Packet.pack
        { buttons := buttons_to_bitmask (apply_modifiers p.modifiers s0).buttons
          axes := (apply_modifiers p.modifiers s0).axes
          dpad_code := dpad_encode (apply_modifiers p.modifiers s0).dpad })] = [] := rfl
    simp [hg1, hg2, hgate]
  · simp only [hgate, if_false]
    simp only [invokedGen_append, invokedPost_append, transmits_append,
      invokedGen_runCallbacks_gen, invokedGen_runCallbacks_post,
      invokedPost_runCallbacks_gen, invokedPost_runCallbacks_post,
      transmits_runCallbacks_gen, transmits_runCallbacks_post,
      List.append_nil, List.nil_append]
    simp [hgate]

/-- A pipeline whose post-generate observer raises, to witness C9. -/
def badObserverPipeline : InputPipeline :=
  { generators := [Except.ok FrameState.default]
    modifiers := [fun s => s]
    gen_callbacks := [fun _ => Except.error PyErr.other]
    post_callbacks := [fun _ => Except.ok ()]
    serial := some { ser := true }
    send_interval := 1
    last_send := 0 }

/-- Witness for C9 at `badObserverPipeline` (its generate-callback raises)
ticked at time 2. -/
theorem observer_isolation_witness :
    badObserverPipeline.generators.head? = some (Except.ok FrameState.default) ∧
    ((badObserverPipeline.update 2).raised = Option.none ∧
     (badObserverPipeline.update 2).result =
       some (apply_modifiers badObserverPipeline.modifiers FrameState.default) ∧
     invokedGen (badObserverPipeline.update 2).events =
       List.range badObserverPipeline.gen_callbacks.length ∧
     invokedPost (badObserverPipeline.update 2).events =
       List.range badObserverPipeline.post_callbacks.length ∧
     (transmits (badObserverPipeline.update 2).events ≠ [] ↔
       badObserverPipeline.serial.isSome = true ∧
       badObserverPipeline.send_interval ≤ 2 - badObserverPipeline.last_send)) :=
  ⟨rfl, observer_isolation badObserverPipeline 2 FrameState.default rfl
    (fun si h => by cases h; rfl)⟩

/-- C10: `send_frame` fails fast at its boundary.  Called with anything
that is not a `FrameState` it raises `TypeError` (before even looking at
the port); called on an interface without an open port — which is what
`__init__` leaves behind for `port=None` or any name whose upper-casing
starts with `"MOCK"` — it raises `RuntimeError`.  In both cases the
result is an exception, not a successful write, so no bytes reach the
transport. -/
theorem send_frame_failfast (si : SerialInterface) (f : FrameState)
    (s : String) (hm : pyStartsWith (pyUpper s) "MOCK" = true) :
    si.send_frame Option.none = Except.error PyErr.typeError ∧
    (SerialInterface.init Option.none).ser = false ∧
    (SerialInterface.init (some s)).ser = false ∧
    (si.ser = false → si.send_frame (some f) = Except.error PyErr.runtimeError) := by
  refine ⟨rfl, rfl, ?_, ?_⟩
  · unfold SerialInterface.init
    simp only [hm]
    simp
  · intro h
    unfold SerialInterface.send_frame
    rw [h]
    rfl

/-- Witness for C10: the mock interface (`ser = false`), the default
frame, and the port name `"MOCKCOM1"`. -/
theorem send_frame_failfast_witness :
    (pyStartsWith (pyUpper "MOCKCOM1") "MOCK" = true) ∧
    ((SerialInterface.mk false).send_frame Option.none =
        Except.error PyErr.typeError ∧
     (SerialInterface.init Option.none).ser = false ∧
     (SerialInterface.init (some "MOCKCOM1")).ser = false ∧
     ((SerialInterface.mk false).ser = false →
       (SerialInterface.mk false).send_frame (some FrameState.default) =
         Except.error PyErr.runtimeError)) :=
  ⟨by decide, send_frame_failfast (SerialInterface.mk false) FrameState.default
    "MOCKCOM1" (by decide)⟩

end XSerialOne
